import Mathlib

/-!
Verification of the streak and habit-state reconciliation core of the
Vision-Board application (`src/streak.ts`, `src/freedomStreak.ts`,
`src/date.ts`, `App.tsx`).

Date model: the code works with calendar dates rendered as local
`YYYY-MM-DD` strings (`toLocalISODate` / `fromISODateLocal` in
`src/date.ts`).  `toLocalISODate` is injective on calendar dates and
`fromISODateLocal` is its inverse, so a date is embedded as its day
number (an `Int`, days since 1970-01-01 in the local calendar):
string equality becomes `Int` equality, `addDays d 1` becomes `d + 1`,
and JavaScript's `getDay` (0 = Sunday .. 6 = Saturday; 1970-01-01 was a
Thursday, day-of-week 4) becomes `(n + 4).emod 7`.
-/

namespace VisionBoard

/-- `addDays` from `src/streak.ts` / `src/freedomStreak.ts`: date plus `n` days. -/
def addDays (d : Int) (n : Int) : Int := d + n

/-- `startOfWeekISO` from `src/freedomStreak.ts`: the Monday-aligned start of
the week containing `d`.  In the source: `dow = getDay` (0 Sun .. 6 Sat),
`diffToMonday = (dow + 6) % 7`, subtract.  With `dow = (d + 4).emod 7` this is
`d - ((d + 4 + 6).emod 7) = d - ((d + 3).emod 7)`. -/
def startOfWeekISO (d : Int) : Int := d - (d + 3).emod 7

/-! ## Simple streak engine (`src/streak.ts`) -/

/-- `StreakDoc` from `src/streak.ts` (the `updatedAt`/`createdAt` server
timestamps are I/O metadata and are not part of the state). -/
structure StreakDoc where
  currentStreak : Nat
  longestStreak : Nat
  lastActiveDate : Option Int
deriving DecidableEq, Repr

/-- The transactional body of `recordActivityForUser` (`src/streak.ts`
lines 39-71): given the previous document and today's date, compute the
next document.  `nextCurrent` is 1 when `lastActiveDate` is absent, the
old streak on a same-day repeat, the old streak + 1 when today is exactly
one day after `lastActiveDate`, and 1 otherwise; `longestStreak` becomes
the max of the old longest and the new current; `lastActiveDate` becomes
today. -/
def recordActivityBody (prev : StreakDoc) (todayISO : Int) : StreakDoc :=
  let nextCurrent :=
    match prev.lastActiveDate with
    | none => 1
    | some last =>
      if last = todayISO then prev.currentStreak
      else if addDays last 1 = todayISO then prev.currentStreak + 1
      else 1
  { currentStreak := nextCurrent
    longestStreak := max prev.longestStreak nextCurrent
    lastActiveDate := some todayISO }

/-- C1: the simple-streak transition sets `currentStreak'` to 1 when
`lastActiveDate` is absent, leaves it unchanged on a same-day repeat,
increments it when today is exactly one day after `lastActiveDate`, and
resets it to 1 otherwise (gap of 2+ days or an out-of-order date); in every
case `longestStreak' = max longestStreak currentStreak'` and
`lastActiveDate' = today`. -/
theorem simple_streak_transition (prev : StreakDoc) (today : Int) :
    (prev.lastActiveDate = none →
      (recordActivityBody prev today).currentStreak = 1) ∧
    (prev.lastActiveDate = some today →
      (recordActivityBody prev today).currentStreak = prev.currentStreak) ∧
    (∀ last, prev.lastActiveDate = some last → last + 1 = today →
      (recordActivityBody prev today).currentStreak = prev.currentStreak + 1) ∧
    (∀ last, prev.lastActiveDate = some last → last ≠ today → last + 1 ≠ today →
      (recordActivityBody prev today).currentStreak = 1) ∧
    (recordActivityBody prev today).longestStreak =
      max prev.longestStreak (recordActivityBody prev today).currentStreak ∧
    (recordActivityBody prev today).lastActiveDate = some today := by
  obtain ⟨c, l, last?⟩ := prev
  cases last? with
  | none => simp [recordActivityBody]
  | some last =>
    refine ⟨by simp, ?_, ?_, ?_, ?_, by simp [recordActivityBody]⟩
    · intro h
      simp at h
      simp [recordActivityBody, h]
    · rintro last' h h1
      simp at h
      subst h
      have hne : last ≠ today := by omega
      simp [recordActivityBody, addDays, hne, h1]
    · rintro last' h hne h1
      simp at h
      subst h
      simp [recordActivityBody, addDays, hne, h1]
    · simp [recordActivityBody]

/-- Witness for C1: from `{currentStreak := 5, longestStreak := 5,
lastActiveDate := 2024-01-01}`, recording activity on 2024-01-03 (a 2-day
gap) resets the streak to 1. -/
theorem simple_streak_transition_witness :
    (recordActivityBody ⟨5, 5, some 19723⟩ 19725).currentStreak = 1 := by
  have h := simple_streak_transition ⟨5, 5, some 19723⟩ 19725
  exact h.2.2.2.1 19723 rfl (by decide) (by decide)

/-! ## Freedom streak engine (`src/freedomStreak.ts`) -/

/-- The kind of a recorded daily action: `'clean' | 'broke'`. -/
inductive ActionKind where
  | clean
  | broke
deriving DecidableEq, Repr

/-- `FreedomMode`: `'progressive' | 'weekly'`. -/
inductive FreedomMode where
  | progressive
  | weekly
deriving DecidableEq, Repr

/-- `FreedomStreakDoc` from `src/freedomStreak.ts` (without the
`updatedAt`/`createdAt` server timestamps, which are I/O metadata).  The
`weekly_actions` object (`Record<string, 'clean' | 'broke'>`) is embedded
as an association list in key-insertion order, matching JavaScript object
semantics for non-index string keys. -/
structure FreedomStreakDoc where
  user_id : String
  current_level : Nat
  target_days : Nat
  current_streak : Nat
  last_action_date : Option Int
  last_action_kind : Option ActionKind
  weekly_recap_week_start : Option Int
  weekly_actions : List (Int × ActionKind)
  weekly_usage_count : Nat
  weekly_reset_date : Option Int
deriving DecidableEq, Repr

/-- `LEVEL_TARGETS` from `src/freedomStreak.ts`. -/
def LEVEL_TARGETS : List Nat := [2, 3, 5, 7]

/-- `defaultDoc` from `src/freedomStreak.ts`. -/
def defaultDoc (uid : String) : FreedomStreakDoc :=
  { user_id := uid
    current_level := 0
    target_days := 2
    current_streak := 0
    last_action_date := none
    last_action_kind := none
    weekly_recap_week_start := none
    weekly_actions := []
    weekly_usage_count := 0
    weekly_reset_date := none }

/-- `getFreedomMode` from `src/freedomStreak.ts`: weekly iff
`current_level >= 4`. -/
def getFreedomMode (d : FreedomStreakDoc) : FreedomMode :=
  if d.current_level ≥ 4 then .weekly else .progressive

/-- The spread `{...actions, [today]: kind}` on a JavaScript object: if the
key is present its value is replaced in place, otherwise the entry is
appended. -/
def insertAction : List (Int × ActionKind) → Int → ActionKind → List (Int × ActionKind)
  | [], k, v => [(k, v)]
  | (k', v') :: rest, k, v =>
    if k' = k then (k, v) :: rest else (k', v') :: insertAction rest k v

/-- `applyWeeklyRecap` from `src/freedomStreak.ts` lines 89-103: returns the
new `(weekly_recap_week_start, weekly_actions)` pair; the log is cleared
first when the Monday-aligned week-start of `today` differs from the stored
one. -/
def applyWeeklyRecap (prev : FreedomStreakDoc) (todayISO : Int) (kind : ActionKind) :
    Option Int × List (Int × ActionKind) :=
  let weekStart := startOfWeekISO todayISO
  let needsReset := prev.weekly_recap_week_start ≠ some weekStart
  let baseActions := if needsReset then [] else prev.weekly_actions
  (some weekStart, insertAction baseActions todayISO kind)

/-- Result type of `markCleanToday` (`FreedomActionResult`). -/
structure FreedomActionResult where
  updated : FreedomStreakDoc
  levelCompleted : Bool
  enteredWeeklyMode : Bool
deriving DecidableEq, Repr

/-- The `nextStreak` computation shared by both clean paths
(`src/freedomStreak.ts` lines 167-172 and 238-243): start from 1; if there
is a last action date and today is exactly one day later, use
`current_streak + 1`. -/
def nextStreakOf (prev : FreedomStreakDoc) (today : Int) : Nat :=
  match prev.last_action_date with
  | none => 1
  | some last => if addDays last 1 = today then prev.current_streak + 1 else 1

/-- The transactional body of `markCleanToday` (`src/freedomStreak.ts`
lines 212-281), acting on the previous document read in the transaction
(already merged onto `defaultDoc`), ignoring the server-timestamp fields.
Branches, in order: reject when today was already marked `broke`; weekly
mode only records the action and the recap; progressive same-day repeat is
a no-op; otherwise compute `nextStreak` and level up when it reaches the
target. -/
def markCleanTxBody (uid : String) (prev : FreedomStreakDoc) (today : Int) :
    FreedomActionResult :=
  if prev.last_action_date = some today ∧ prev.last_action_kind = some .broke then
    { updated := prev, levelCompleted := false
      enteredWeeklyMode := decide (getFreedomMode prev = .weekly) }
  else if getFreedomMode prev = .weekly then
    let recap := applyWeeklyRecap prev today .clean
    let next : FreedomStreakDoc :=
      { prev with
        user_id := uid
        last_action_date := some today
        last_action_kind := some .clean
        weekly_recap_week_start := recap.1
        weekly_actions := recap.2 }
    { updated := next, levelCompleted := false, enteredWeeklyMode := true }
  else if prev.last_action_date = some today then
    { updated := prev, levelCompleted := false, enteredWeeklyMode := false }
  else
    let nextStreak := nextStreakOf prev today
    let target := prev.target_days
    let leveled := nextStreak ≥ target
    let nextLevel := if leveled then min 4 (prev.current_level + 1) else prev.current_level
    let nextTarget := if leveled ∧ ¬ (min 4 (prev.current_level + 1) ≥ 4)
      then LEVEL_TARGETS.getD (min 4 (prev.current_level + 1)) 7
      else prev.target_days
    let nextStreakPost := if leveled then 0 else nextStreak
    let recap := applyWeeklyRecap prev today .clean
    let next : FreedomStreakDoc :=
      { prev with
        user_id := uid
        current_level := nextLevel
        target_days := nextTarget
        current_streak := nextStreakPost
        last_action_date := some today
        last_action_kind := some .clean
        weekly_recap_week_start := recap.1
        weekly_actions := recap.2 }
    { updated := next, levelCompleted := decide leveled
      enteredWeeklyMode := decide (leveled ∧ min 4 (prev.current_level + 1) ≥ 4) }

/-- `applyCleanLocal` (`src/freedomStreak.ts` lines 145-205): the offline
fallback transition.  It first merges the input onto `defaultDoc` with
`user_id` forced to `uid` (on a fully populated record this is exactly
forcing `user_id := uid`), then runs the same branches as the transactional
body; unlike the latter it does not re-set `user_id` when building the next
record, since the merged record already carries it. -/
def applyCleanLocal (uid : String) (prevIn : FreedomStreakDoc) (today : Int) :
    FreedomActionResult :=
  let prev := { prevIn with user_id := uid }
  if prev.last_action_date = some today ∧ prev.last_action_kind = some .broke then
    { updated := prev, levelCompleted := false
      enteredWeeklyMode := decide (getFreedomMode prev = .weekly) }
  else if getFreedomMode prev = .weekly then
    let recap := applyWeeklyRecap prev today .clean
    let next : FreedomStreakDoc :=
      { prev with
        last_action_date := some today
        last_action_kind := some .clean
        weekly_recap_week_start := recap.1
        weekly_actions := recap.2 }
    { updated := next, levelCompleted := false, enteredWeeklyMode := true }
  else if prev.last_action_date = some today then
    { updated := prev, levelCompleted := false, enteredWeeklyMode := false }
  else
    let nextStreak := nextStreakOf prev today
    let target := prev.target_days
    let leveled := nextStreak ≥ target
    let nextLevel := if leveled then min 4 (prev.current_level + 1) else prev.current_level
    let nextTarget := if leveled ∧ ¬ (min 4 (prev.current_level + 1) ≥ 4)
      then LEVEL_TARGETS.getD (min 4 (prev.current_level + 1)) 7
      else prev.target_days
    let nextStreakPost := if leveled then 0 else nextStreak
    let recap := applyWeeklyRecap prev today .clean
    let next : FreedomStreakDoc :=
      { prev with
        current_level := nextLevel
        target_days := nextTarget
        current_streak := nextStreakPost
        last_action_date := some today
        last_action_kind := some .clean
        weekly_recap_week_start := recap.1
        weekly_actions := recap.2 }
    { updated := next, levelCompleted := decide leveled
      enteredWeeklyMode := decide (leveled ∧ min 4 (prev.current_level + 1) ≥ 4) }

/-- The transactional body of `markBrokeIt` (`src/freedomStreak.ts`
lines 337-373), ignoring the server-timestamp fields.  Weekly mode: reset
the weekly counter when the week changed, then increment capped at 1.
Progressive mode: reset `current_streak` only. -/
def markBrokeTxBody (uid : String) (prev : FreedomStreakDoc) (today : Int) :
    FreedomStreakDoc :=
  let recap := applyWeeklyRecap prev today .broke
  if getFreedomMode prev = .weekly then
    let weekStart := startOfWeekISO today
    let needsReset := prev.weekly_reset_date ≠ some weekStart
    let count := if needsReset then 0 else prev.weekly_usage_count
    let nextCount := min 1 (count + 1)
    { prev with
      user_id := uid
      weekly_recap_week_start := recap.1
      weekly_actions := recap.2
      weekly_reset_date := some weekStart
      weekly_usage_count := nextCount
      last_action_date := some today
      last_action_kind := some .broke }
  else
    { prev with
      user_id := uid
      weekly_recap_week_start := recap.1
      weekly_actions := recap.2
      current_streak := 0
      last_action_date := some today
      last_action_kind := some .broke }

/-- `applyBrokeLocal` (`src/freedomStreak.ts` lines 303-330): the offline
fallback transition for "I broke it"; merges the input onto `defaultDoc`
with `user_id` forced to `uid`, then runs the same branches as the
transactional body. -/
def applyBrokeLocal (uid : String) (prevIn : FreedomStreakDoc) (today : Int) :
    FreedomStreakDoc :=
  let prev := { prevIn with user_id := uid }
  let recap := applyWeeklyRecap prev today .broke
  if getFreedomMode prev = .weekly then
    let weekStart := startOfWeekISO today
    let needsReset := prev.weekly_reset_date ≠ some weekStart
    let count := if needsReset then 0 else prev.weekly_usage_count
    let nextCount := min 1 (count + 1)
    { prev with
      weekly_recap_week_start := recap.1
      weekly_actions := recap.2
      weekly_reset_date := some weekStart
      weekly_usage_count := nextCount
      last_action_date := some today
      last_action_kind := some .broke }
  else
    { prev with
      weekly_recap_week_start := recap.1
      weekly_actions := recap.2
      current_streak := 0
      last_action_date := some today
      last_action_kind := some .broke }

/-! ## Local cache mirror (`readFreedomCache` / the offline fallback) -/

/-- A stored document as it may sit in the local cache: any subset of the
fields of `FreedomStreakDoc` (a `Partial<FreedomStreakDoc>` in the source);
`none` means the field is absent from the stored JSON. -/
structure FreedomDocPatch where
  user_id : Option String := none
  current_level : Option Nat := none
  target_days : Option Nat := none
  current_streak : Option Nat := none
  last_action_date : Option (Option Int) := none
  last_action_kind : Option (Option ActionKind) := none
  weekly_recap_week_start : Option (Option Int) := none
  weekly_actions : Option (List (Int × ActionKind)) := none
  weekly_usage_count : Option Nat := none
  weekly_reset_date : Option (Option Int) := none
deriving DecidableEq, Repr

/-- Content of the local-storage slot for a user's freedom-streak document:
absent, a string that does not parse as JSON, or a parsed (possibly
partial) document. -/
inductive CacheContent where
  | malformed
  | parsed (p : FreedomDocPatch)
deriving DecidableEq, Repr

/-- The merge `{...defaultDoc(uid), ...parsed, user_id: uid}` from
`readFreedomCache`: every absent field takes its `defaultDoc` value, and
`user_id` is forced to `uid` regardless of what is stored. -/
def mergeDefault (uid : String) (p : FreedomDocPatch) : FreedomStreakDoc :=
  { user_id := uid
    current_level := p.current_level.getD 0
    target_days := p.target_days.getD 2
    current_streak := p.current_streak.getD 0
    last_action_date := p.last_action_date.getD none
    last_action_kind := p.last_action_kind.getD none
    weekly_recap_week_start := p.weekly_recap_week_start.getD none
    weekly_actions := p.weekly_actions.getD []
    weekly_usage_count := p.weekly_usage_count.getD 0
    weekly_reset_date := p.weekly_reset_date.getD none }

/-- `readFreedomCache` (`src/freedomStreak.ts` lines 48-57): `null` when the
slot is empty, `null` when reading or parsing throws (the `catch` branch),
otherwise the parsed fields merged onto the default with `user_id` forced
to `uid`. -/
def readFreedomCache (uid : String) (cache : Option CacheContent) :
    Option FreedomStreakDoc :=
  match cache with
  | none => none
  | some .malformed => none
  | some (.parsed p) => some (mergeDefault uid p)

/-- The offline branch of `getFreedomStreak` (`src/freedomStreak.ts`
lines 123-126): when the remote read fails, return the cached document or
the synthesized default. -/
def getFreedomStreakOffline (uid : String) (cache : Option CacheContent) :
    FreedomStreakDoc :=
  (readFreedomCache uid cache).getD (defaultDoc uid)

/-- The `catch` branch of `markCleanToday` (`src/freedomStreak.ts`
lines 286-291): apply `applyCleanLocal` to the cached record (or the
default when no cache exists) and write the result back to the cache.
Returns the action result together with the document written to the
cache. -/
def markCleanOffline (uid : String) (cache : Option CacheContent) (today : Int) :
    FreedomActionResult × FreedomStreakDoc :=
  let prev := (readFreedomCache uid cache).getD (defaultDoc uid)
  let res := applyCleanLocal uid prev today
  (res, res.updated)

/-- The `catch` branch of `markBrokeIt` (`src/freedomStreak.ts`
lines 378-383): apply `applyBrokeLocal` to the cached record (or the
default) and write the result back to the cache.  Returns the returned
document together with the document written to the cache. -/
def markBrokeOffline (uid : String) (cache : Option CacheContent) (today : Int) :
    FreedomStreakDoc × FreedomStreakDoc :=
  let prev := (readFreedomCache uid cache).getD (defaultDoc uid)
  let updated := applyBrokeLocal uid prev today
  (updated, updated)

/-! ## Activity log aggregator (`App.tsx`) -/

/-- `Activity` from `types.ts`: a per-day tally entry. -/
structure Activity where
  date : Int
  count : Nat
deriving DecidableEq, Repr

/-- A moment in time, as far as the date logic can observe it: the calendar
date it falls on in UTC and the calendar date it falls on in the machine's
local timezone.  Near midnight the two differ.
`new Date().toISOString().split(char)[0]` yields `utcDay`;
`toLocalISODate(new Date())` (from `src/date.ts`) yields `localDay`. -/
structure Instant where
  utcDay : Int
  localDay : Int
deriving DecidableEq, Repr

/-- `logActivity` from `App.tsx` lines 52-60 (the activity-list update):
the key is the supplied date if any, otherwise
`new Date().toISOString().split(char)[0]` — the UTC calendar date of `now`.
If an entry with that key exists its count is incremented, else
`{date, count: 1}` is appended. -/
def logActivity (prev : List Activity) (dateArg : Option Int) (now : Instant) :
    List Activity :=
  let today := dateArg.getD now.utcDay
  if (prev.find? (fun a => a.date == today)).isSome then
    prev.map (fun a => if a.date = today then { a with count := a.count + 1 } else a)
  else prev ++ [{ date := today, count := 1 }]

/-! ## Helper lemmas -/

theorem getFreedomMode_eq_weekly {d : FreedomStreakDoc} :
    getFreedomMode d = FreedomMode.weekly ↔ 4 ≤ d.current_level := by
  unfold getFreedomMode
  split <;> simp_all

theorem markCleanTxBody_guard (uid : String) (prev : FreedomStreakDoc) (today : Int)
    (h : prev.last_action_date = some today ∧
      prev.last_action_kind = some ActionKind.broke) :
    markCleanTxBody uid prev today =
      ⟨prev, false, decide (getFreedomMode prev = FreedomMode.weekly)⟩ := by
  unfold markCleanTxBody
  rw [if_pos h]

theorem markCleanTxBody_weekly (uid : String) (prev : FreedomStreakDoc) (today : Int)
    (hg : ¬(prev.last_action_date = some today ∧
      prev.last_action_kind = some ActionKind.broke))
    (hw : getFreedomMode prev = FreedomMode.weekly) :
    markCleanTxBody uid prev today =
      ⟨{ prev with
          user_id := uid
          last_action_date := some today
          last_action_kind := some ActionKind.clean
          weekly_recap_week_start := (applyWeeklyRecap prev today .clean).1
          weekly_actions := (applyWeeklyRecap prev today .clean).2 },
        false, true⟩ := by
  unfold markCleanTxBody
  rw [if_neg hg, if_pos hw]

theorem markCleanTxBody_sameday (uid : String) (prev : FreedomStreakDoc) (today : Int)
    (hg : ¬(prev.last_action_date = some today ∧
      prev.last_action_kind = some ActionKind.broke))
    (hnw : ¬ getFreedomMode prev = FreedomMode.weekly)
    (hd : prev.last_action_date = some today) :
    markCleanTxBody uid prev today = ⟨prev, false, false⟩ := by
  unfold markCleanTxBody
  rw [if_neg hg, if_neg hnw, if_pos hd]

theorem markCleanTxBody_main (uid : String) (prev : FreedomStreakDoc) (today : Int)
    (hg : ¬(prev.last_action_date = some today ∧
      prev.last_action_kind = some ActionKind.broke))
    (hnw : ¬ getFreedomMode prev = FreedomMode.weekly)
    (hnd : ¬ prev.last_action_date = some today) :
    markCleanTxBody uid prev today =
      ⟨{ prev with
          current_level := if nextStreakOf prev today ≥ prev.target_days
            then min 4 (prev.current_level + 1) else prev.current_level
          target_days := if nextStreakOf prev today ≥ prev.target_days ∧
              ¬ (min 4 (prev.current_level + 1) ≥ 4)
            then LEVEL_TARGETS.getD (min 4 (prev.current_level + 1)) 7
            else prev.target_days
          current_streak := if nextStreakOf prev today ≥ prev.target_days
            then 0 else nextStreakOf prev today
          user_id := uid
          last_action_date := some today
          last_action_kind := some ActionKind.clean
          weekly_recap_week_start := (applyWeeklyRecap prev today .clean).1
          weekly_actions := (applyWeeklyRecap prev today .clean).2 },
        decide (nextStreakOf prev today ≥ prev.target_days),
        decide (nextStreakOf prev today ≥ prev.target_days ∧
          min 4 (prev.current_level + 1) ≥ 4)⟩ := by
  unfold markCleanTxBody
  rw [if_neg hg, if_neg hnw, if_neg hnd]

theorem markBrokeTxBody_last_action (uid : String) (r : FreedomStreakDoc) (d : Int) :
    (markBrokeTxBody uid r d).last_action_date = some d ∧
    (markBrokeTxBody uid r d).last_action_kind = some ActionKind.broke := by
  unfold markBrokeTxBody
  split <;> exact ⟨rfl, rfl⟩

theorem markBrokeTxBody_current_level (uid : String) (r : FreedomStreakDoc) (d : Int) :
    (markBrokeTxBody uid r d).current_level = r.current_level := by
  unfold markBrokeTxBody
  split <;> rfl

theorem markBrokeTxBody_weekly (uid : String) (prev : FreedomStreakDoc) (today : Int)
    (hw : getFreedomMode prev = FreedomMode.weekly) :
    markBrokeTxBody uid prev today =
      { prev with
        user_id := uid
        weekly_recap_week_start := (applyWeeklyRecap prev today .broke).1
        weekly_actions := (applyWeeklyRecap prev today .broke).2
        weekly_reset_date := some (startOfWeekISO today)
        weekly_usage_count :=
          min 1 ((if prev.weekly_reset_date ≠ some (startOfWeekISO today)
            then 0 else prev.weekly_usage_count) + 1)
        last_action_date := some today
        last_action_kind := some ActionKind.broke } := by
  unfold markBrokeTxBody
  rw [if_pos hw]

theorem markBrokeTxBody_progressive (uid : String) (prev : FreedomStreakDoc)
    (today : Int) (hnw : ¬ getFreedomMode prev = FreedomMode.weekly) :
    markBrokeTxBody uid prev today =
      { prev with
        user_id := uid
        weekly_recap_week_start := (applyWeeklyRecap prev today .broke).1
        weekly_actions := (applyWeeklyRecap prev today .broke).2
        current_streak := 0
        last_action_date := some today
        last_action_kind := some ActionKind.broke } := by
  unfold markBrokeTxBody
  rw [if_neg hnw]

/-- C2: in progressive mode, when the clean action computes a
`nextStreak` reaching `target_days`, the transition reports
`levelCompleted = true`, advances the level by 1 capped at 4 and resets the
streak to 0; if the new level is 4 it reports `enteredWeeklyMode = true`,
otherwise `target_days` becomes the ladder value `[2,3,5,7]` indexed by the
new level. -/
theorem freedom_levelup (uid : String) (prev : FreedomStreakDoc) (today : Int)
    (hlevel : prev.current_level < 4)
    (hbroke : ¬(prev.last_action_date = some today ∧
      prev.last_action_kind = some ActionKind.broke))
    (hsame : prev.last_action_date ≠ some today)
    (htarget : nextStreakOf prev today ≥ prev.target_days) :
    (markCleanTxBody uid prev today).levelCompleted = true ∧
    (markCleanTxBody uid prev today).updated.current_level =
      min 4 (prev.current_level + 1) ∧
    (markCleanTxBody uid prev today).updated.current_streak = 0 ∧
    (min 4 (prev.current_level + 1) = 4 →
      (markCleanTxBody uid prev today).enteredWeeklyMode = true) ∧
    (min 4 (prev.current_level + 1) < 4 →
      (markCleanTxBody uid prev today).updated.target_days =
        LEVEL_TARGETS.getD (min 4 (prev.current_level + 1)) 7) := by
  have hw : ¬ getFreedomMode prev = FreedomMode.weekly := by
    rw [getFreedomMode_eq_weekly]
    omega
  rw [markCleanTxBody_main uid prev today hbroke hw hsame]
  refine ⟨by simpa using htarget, by simp [htarget], by simp [htarget], ?_, ?_⟩
  · intro h4
    simp only [decide_eq_true_eq]
    exact ⟨htarget, by omega⟩
  · intro h4
    have hh : ¬ (4 ≤ min 4 (prev.current_level + 1)) := by omega
    simp [htarget, hh]

/-- Witness for C2: from level 0, target 2, streak 1, last clean action on
2024-01-01, a clean action on 2024-01-02 completes the level: level
becomes 1, target becomes 3, streak resets to 0. -/
theorem freedom_levelup_witness :
    (markCleanTxBody "u"
        ⟨"u", 0, 2, 1, some 19723, some .clean, some 19723, [(19723, .clean)], 0, none⟩
        19724).levelCompleted = true ∧
    (markCleanTxBody "u"
        ⟨"u", 0, 2, 1, some 19723, some .clean, some 19723, [(19723, .clean)], 0, none⟩
        19724).updated.current_level = 1 ∧
    (markCleanTxBody "u"
        ⟨"u", 0, 2, 1, some 19723, some .clean, some 19723, [(19723, .clean)], 0, none⟩
        19724).updated.current_streak = 0 ∧
    (markCleanTxBody "u"
        ⟨"u", 0, 2, 1, some 19723, some .clean, some 19723, [(19723, .clean)], 0, none⟩
        19724).updated.target_days = 3 := by
  have h := freedom_levelup "u"
    ⟨"u", 0, 2, 1, some 19723, some .clean, some 19723, [(19723, .clean)], 0, none⟩
    19724 (by decide) (by decide) (by decide) (by decide)
  refine ⟨h.1, by simpa using h.2.1, h.2.2.1, ?_⟩
  have := h.2.2.2.2 (by decide)
  simpa using this

/-- C4: in weekly mode, `markBrokeIt` sets `weekly_reset_date` to the
Monday-aligned week-start of today, sets `weekly_usage_count` to
`min 1 (count + 1)` where `count` is the stored count if the week-start
matches the stored reset date and 0 otherwise (so the result is always 1);
two calls with dates in the same Monday-aligned week leave the count at 1
and the level unchanged. -/
theorem weekly_broke_cap (uid : String) (prev : FreedomStreakDoc) (d1 d2 : Int)
    (hw : 4 ≤ prev.current_level) :
    (markBrokeTxBody uid prev d1).weekly_reset_date = some (startOfWeekISO d1) ∧
    (markBrokeTxBody uid prev d1).weekly_usage_count =
      min 1 ((if prev.weekly_reset_date = some (startOfWeekISO d1)
        then prev.weekly_usage_count else 0) + 1) ∧
    (markBrokeTxBody uid prev d1).weekly_usage_count = 1 ∧
    (markBrokeTxBody uid prev d1).current_level = prev.current_level ∧
    (startOfWeekISO d1 = startOfWeekISO d2 →
      (markBrokeTxBody uid (markBrokeTxBody uid prev d1) d2).weekly_usage_count = 1 ∧
      (markBrokeTxBody uid (markBrokeTxBody uid prev d1) d2).current_level =
        prev.current_level) := by
  have hwm : getFreedomMode prev = FreedomMode.weekly := getFreedomMode_eq_weekly.2 hw
  have h1 := markBrokeTxBody_weekly uid prev d1 hwm
  have hreset : (markBrokeTxBody uid prev d1).weekly_reset_date =
      some (startOfWeekISO d1) := by
    rw [h1]
  have hlevel := markBrokeTxBody_current_level uid prev d1
  have hcount : (markBrokeTxBody uid prev d1).weekly_usage_count =
      min 1 ((if prev.weekly_reset_date = some (startOfWeekISO d1)
        then prev.weekly_usage_count else 0) + 1) := by
    rw [h1]
    by_cases hc : prev.weekly_reset_date = some (startOfWeekISO d1) <;> simp [hc]
  have hone : (markBrokeTxBody uid prev d1).weekly_usage_count = 1 := by
    rw [hcount]
    omega
  refine ⟨hreset, hcount, hone, hlevel, ?_⟩
  intro hweek
  have hwm2 : getFreedomMode (markBrokeTxBody uid prev d1) = FreedomMode.weekly := by
    rw [getFreedomMode_eq_weekly, hlevel]
    exact hw
  have h2 := markBrokeTxBody_weekly uid (markBrokeTxBody uid prev d1) d2 hwm2
  constructor
  · rw [h2]
    have hsame : (markBrokeTxBody uid prev d1).weekly_reset_date =
        some (startOfWeekISO d2) := by
      rw [hreset, hweek]
    simp only [hsame, ne_eq, not_true_eq_false, if_false, hone]
    omega
  · rw [markBrokeTxBody_current_level, markBrokeTxBody_current_level]

/-- Witness for C4: from a weekly-mode record (level 4) with no prior
usage, two broke actions on Monday 2024-01-01 and Wednesday 2024-01-03
(same Monday-aligned week) leave `weekly_usage_count` at 1 and the level
at 4. -/
theorem weekly_broke_cap_witness :
    (markBrokeTxBody "u"
        (markBrokeTxBody "u" ⟨"u", 4, 7, 0, none, none, none, [], 0, none⟩ 19723)
        19725).weekly_usage_count = 1 ∧
    (markBrokeTxBody "u"
        (markBrokeTxBody "u" ⟨"u", 4, 7, 0, none, none, none, [], 0, none⟩ 19723)
        19725).current_level = 4 := by
  have h := weekly_broke_cap "u" ⟨"u", 4, 7, 0, none, none, none, [], 0, none⟩
    19723 19725 (by decide)
  exact h.2.2.2.2 (by decide)

/-- C5: a clean action on a day already marked `broke` is rejected with no
state change; in particular `markBrokeIt` followed by `markCleanToday` with
the same date leaves the record exactly as after the `markBrokeIt` call. -/
theorem clean_after_broke_rejected (uid : String) (r : FreedomStreakDoc) (d : Int) :
    (r.last_action_date = some d → r.last_action_kind = some ActionKind.broke →
      (markCleanTxBody uid r d).updated = r) ∧
    (markCleanTxBody uid (markBrokeTxBody uid r d) d).updated =
      markBrokeTxBody uid r d := by
  constructor
  · intro hd hk
    unfold markCleanTxBody
    rw [if_pos ⟨hd, hk⟩]
  · obtain ⟨hd, hk⟩ := markBrokeTxBody_last_action uid r d
    unfold markCleanTxBody
    rw [if_pos ⟨hd, hk⟩]

/-- Witness for C5: on a record whose last action is `broke` today, the
clean action returns it unchanged. -/
theorem clean_after_broke_rejected_witness :
    (markCleanTxBody "u" ⟨"u", 1, 3, 0, some 19723, some .broke, none, [], 0, none⟩
      19723).updated =
    ⟨"u", 1, 3, 0, some 19723, some .broke, none, [], 0, none⟩ := by
  exact (clean_after_broke_rejected "u"
    ⟨"u", 1, 3, 0, some 19723, some .broke, none, [], 0, none⟩ 19723).1 rfl rfl

/-- C7: weekly mode is absorbing and `current_level` never decreases: the
clean transition never lowers the level, the broke transition leaves it
unchanged, and from level 4 both transitions stay at level 4. -/
theorem weekly_mode_absorbing (uid : String) (r : FreedomStreakDoc) (d : Int) :
    r.current_level ≤ (markCleanTxBody uid r d).updated.current_level ∧
    (markBrokeTxBody uid r d).current_level = r.current_level ∧
    (r.current_level = 4 →
      (markCleanTxBody uid r d).updated.current_level = 4 ∧
      (markBrokeTxBody uid r d).current_level = 4) := by
  have hclean : r.current_level ≤ (markCleanTxBody uid r d).updated.current_level := by
    by_cases hg : r.last_action_date = some d ∧ r.last_action_kind = some ActionKind.broke
    · rw [markCleanTxBody_guard uid r d hg]
    · by_cases hw : getFreedomMode r = FreedomMode.weekly
      · rw [markCleanTxBody_weekly uid r d hg hw]
      · by_cases hd : r.last_action_date = some d
        · rw [markCleanTxBody_sameday uid r d hg hw hd]
        · rw [markCleanTxBody_main uid r d hg hw hd]
          have hlt : r.current_level < 4 := by
            rw [getFreedomMode_eq_weekly] at hw
            omega
          simp only
          split <;> omega
  have hbroke := markBrokeTxBody_current_level uid r d
  refine ⟨hclean, hbroke, ?_⟩
  intro h4
  have hw : getFreedomMode r = FreedomMode.weekly := getFreedomMode_eq_weekly.2 (by omega)
  constructor
  · by_cases hg : r.last_action_date = some d ∧ r.last_action_kind = some ActionKind.broke
    · rw [markCleanTxBody_guard uid r d hg]
      exact h4
    · rw [markCleanTxBody_weekly uid r d hg hw]
      exact h4
  · rw [hbroke, h4]

/-- Witness for C7: from a weekly-mode record at level 4, both a clean and
a broke action leave the level at 4. -/
theorem weekly_mode_absorbing_witness :
    (markCleanTxBody "u" ⟨"u", 4, 7, 0, some 19723, some .clean, some 19723,
      [(19723, .clean)], 0, none⟩ 19724).updated.current_level = 4 ∧
    (markBrokeTxBody "u" ⟨"u", 4, 7, 0, some 19723, some .clean, some 19723,
      [(19723, .clean)], 0, none⟩ 19724).current_level = 4 :=
  (weekly_mode_absorbing "u" ⟨"u", 4, 7, 0, some 19723, some .clean, some 19723,
    [(19723, .clean)], 0, none⟩ 19724).2.2 rfl

/-- C8: in progressive mode, the broke transition resets `current_streak`
to 0, stamps today's date and kind `broke`, updates the weekly recap
fields, and changes nothing else: `current_level`, `target_days`,
`weekly_usage_count` and `weekly_reset_date` are untouched. -/
theorem broke_progressive_frame (uid : String) (r : FreedomStreakDoc) (d : Int)
    (h : r.current_level < 4) :
    (markBrokeTxBody uid r d).current_streak = 0 ∧
    (markBrokeTxBody uid r d).last_action_date = some d ∧
    (markBrokeTxBody uid r d).last_action_kind = some ActionKind.broke ∧
    (markBrokeTxBody uid r d).current_level = r.current_level ∧
    (markBrokeTxBody uid r d).target_days = r.target_days ∧
    (markBrokeTxBody uid r d).weekly_usage_count = r.weekly_usage_count ∧
    (markBrokeTxBody uid r d).weekly_reset_date = r.weekly_reset_date ∧
    (r.user_id = uid →
      markBrokeTxBody uid r d =
        { r with
          current_streak := 0
          last_action_date := some d
          last_action_kind := some ActionKind.broke
          weekly_recap_week_start := (applyWeeklyRecap r d .broke).1
          weekly_actions := (applyWeeklyRecap r d .broke).2 }) := by
  have hnw : ¬ getFreedomMode r = FreedomMode.weekly := by
    rw [getFreedomMode_eq_weekly]
    omega
  have hp := markBrokeTxBody_progressive uid r d hnw
  refine ⟨by rw [hp], by rw [hp], by rw [hp], by rw [hp], by rw [hp], by rw [hp],
    by rw [hp], ?_⟩
  intro hu
  rw [hp, ← hu]

/-- Witness for C8: a broke action at level 1 with a running streak of 2
resets only the streak, date/kind stamps and recap log. -/
theorem broke_progressive_frame_witness :
    markBrokeTxBody "u"
      ⟨"u", 1, 3, 2, some 19723, some .clean, some 19723, [(19723, .clean)], 0, none⟩
      19724 =
    { (⟨"u", 1, 3, 2, some 19723, some .clean, some 19723, [(19723, .clean)], 0,
        none⟩ : FreedomStreakDoc) with
      current_streak := 0
      last_action_date := some 19724
      last_action_kind := some ActionKind.broke
      weekly_recap_week_start :=
        (applyWeeklyRecap ⟨"u", 1, 3, 2, some 19723, some .clean, some 19723,
          [(19723, .clean)], 0, none⟩ 19724 .broke).1
      weekly_actions :=
        (applyWeeklyRecap ⟨"u", 1, 3, 2, some 19723, some .clean, some 19723,
          [(19723, .clean)], 0, none⟩ 19724 .broke).2 } :=
  (broke_progressive_frame "u"
    ⟨"u", 1, 3, 2, some 19723, some .clean, some 19723, [(19723, .clean)], 0, none⟩
    19724 (by decide)).2.2.2.2.2.2.2 rfl

/-- C9 (failing part): with no date argument, `logActivity` keys the new
entry by the UTC calendar date of the current instant, not by the local
calendar date.  Here the instant falls on 2024-01-02 in UTC but still on
2024-01-01 locally (a user west of UTC shortly after UTC midnight): the
entry is appended under 2024-01-02.  The append-or-increment behaviour
itself is as described: an existing entry for the key date is incremented,
a missing one is appended with count 1. -/
theorem logActivity_defaults_to_utc :
    logActivity [] none { utcDay := 19724, localDay := 19723 } =
      [{ date := 19724, count := 1 }] ∧
    logActivity [{ date := 19724, count := 1 }] (some 19724)
        { utcDay := 19724, localDay := 19723 } =
      [{ date := 19724, count := 2 }] ∧
    logActivity [{ date := 19723, count := 3 }, { date := 19724, count := 1 }]
        (some 19724) { utcDay := 19724, localDay := 19723 } =
      [{ date := 19723, count := 3 }, { date := 19724, count := 2 }] ∧
    (19724 : Int) ≠ 19723 := by
  refine ⟨?_, ?_, ?_, by decide⟩ <;> rfl

/-- C10: `readFreedomCache` is total: for every cache content it returns
either `none` (slot empty or unreadable/unparseable) or the stored partial
document merged onto the schema default with `user_id` forced to `uid`;
when it returns `none`, `getFreedomStreak`'s offline branch and the offline
fallbacks of `markCleanToday` / `markBrokeIt` all operate on the
synthesized default record. -/
theorem cache_read_total (uid : String) (cache : Option CacheContent) (today : Int) :
    (∀ d, readFreedomCache uid cache = some d →
      d.user_id = uid ∧
      ∃ p, cache = some (CacheContent.parsed p) ∧ d = mergeDefault uid p) ∧
    (readFreedomCache uid cache = none →
      getFreedomStreakOffline uid cache = defaultDoc uid ∧
      (markCleanOffline uid cache today).1 = applyCleanLocal uid (defaultDoc uid) today ∧
      (markBrokeOffline uid cache today).1 = applyBrokeLocal uid (defaultDoc uid) today) := by
  match cache with
  | none => exact ⟨by simp [readFreedomCache], fun _ => ⟨rfl, rfl, rfl⟩⟩
  | some .malformed => exact ⟨by simp [readFreedomCache], fun _ => ⟨rfl, rfl, rfl⟩⟩
  | some (.parsed p) =>
    refine ⟨?_, by simp [readFreedomCache]⟩
    intro d hd
    simp only [readFreedomCache, Option.some.injEq] at hd
    subst hd
    exact ⟨rfl, p, rfl, rfl⟩

/-- Witness for C10: a cached partial document storing a foreign user id
and level 9 is merged onto the default with `user_id` forced back to the
reading user; an absent cache degrades to the default record. -/
theorem cache_read_total_witness :
    (mergeDefault "u"
      ⟨some "w", some 9, none, none, none, none, none, none, none, none⟩).user_id
      = "u" ∧
    getFreedomStreakOffline "u" none = defaultDoc "u" :=
  ⟨((cache_read_total "u"
      (some (CacheContent.parsed
        ⟨some "w", some 9, none, none, none, none, none, none, none, none⟩)) 0).1
      (mergeDefault "u" ⟨some "w", some 9, none, none, none, none, none, none,
        none, none⟩) rfl).1,
    ((cache_read_total "u" none 0).2 rfl).1⟩

theorem insertAction_idem (l : List (Int × ActionKind)) (k : Int) (v : ActionKind) :
    insertAction (insertAction l k v) k v = insertAction l k v := by
  induction l with
  | nil => simp [insertAction]
  | cons e tl ih =>
    obtain ⟨k', v'⟩ := e
    by_cases h : k' = k
    · subst h
      simp [insertAction]
    · simp only [insertAction, if_neg h, ih]

/-- A record that already carries today's clean action (and whose recap log
already holds today's entry) is a fixed point of the clean transition. -/
theorem markCleanTxBody_fixed (uid : String) (r : FreedomStreakDoc) (d : Int)
    (hu : r.user_id = uid) (hd : r.last_action_date = some d)
    (hk : r.last_action_kind = some ActionKind.clean)
    (hws : r.weekly_recap_week_start = some (startOfWeekISO d))
    (hact : insertAction r.weekly_actions d ActionKind.clean = r.weekly_actions) :
    (markCleanTxBody uid r d).updated = r := by
  have hg : ¬(r.last_action_date = some d ∧ r.last_action_kind = some ActionKind.broke) := by
    rintro ⟨-, hb⟩
    rw [hk] at hb
    exact absurd (Option.some.inj hb) (by simp)
  have hrecap : applyWeeklyRecap r d ActionKind.clean =
      (some (startOfWeekISO d), r.weekly_actions) := by
    unfold applyWeeklyRecap
    simp only [hws, ne_eq, not_true_eq_false, if_false, hact]
  by_cases hw : getFreedomMode r = FreedomMode.weekly
  · rw [markCleanTxBody_weekly uid r d hg hw]
    simp only [hrecap]
    rw [← hu, ← hd, ← hk, ← hws]
  · rw [markCleanTxBody_sameday uid r d hg hw hd]

/-- C6: the clean transition is idempotent within a day: applying it twice
with the same date yields the same record as applying it once, in both
progressive and weekly mode. -/
theorem clean_idempotent (uid : String) (r : FreedomStreakDoc) (d : Int) :
    (markCleanTxBody uid ((markCleanTxBody uid r d).updated) d).updated =
      (markCleanTxBody uid r d).updated := by
  by_cases hg : r.last_action_date = some d ∧ r.last_action_kind = some ActionKind.broke
  · rw [markCleanTxBody_guard uid r d hg]
    rw [markCleanTxBody_guard uid r d hg]
  · by_cases hw : getFreedomMode r = FreedomMode.weekly
    · rw [markCleanTxBody_weekly uid r d hg hw]
      exact markCleanTxBody_fixed uid _ d rfl rfl rfl rfl (insertAction_idem _ d .clean)
    · by_cases hd : r.last_action_date = some d
      · rw [markCleanTxBody_sameday uid r d hg hw hd]
        rw [markCleanTxBody_sameday uid r d hg hw hd]
      · rw [markCleanTxBody_main uid r d hg hw hd]
        exact markCleanTxBody_fixed uid _ d rfl rfl rfl rfl (insertAction_idem _ d .clean)

/-- C3 fails as stated: on a record whose stored `user_id` differs from the
operating uid and whose last action is `broke` today, the transactional
body returns the record with its stored `user_id`, while the offline
fallback forces `user_id` to the operating uid before the early return, so
the two results differ. -/
theorem offline_tx_divergence :
    (applyCleanLocal "u"
      ⟨"w", 0, 2, 0, some 0, some .broke, none, [], 0, none⟩ 0).updated ≠
    (markCleanTxBody "u"
      ⟨"w", 0, 2, 0, some 0, some .broke, none, [], 0, none⟩ 0).updated := by
  decide

/-- C3 (amended): `applyCleanLocal` agrees with the transactional body of
`markCleanToday` on every previous record whose `user_id` is the operating
uid (which holds for every record the engine writes); `applyBrokeLocal`
agrees with the transactional body of `markBrokeIt` unconditionally; and
the offline fallbacks compute their result from the cached record (or the
synthesized default when no cache exists) via these pure transitions —
matching the transactional body on that record — and write exactly the
returned record back to the cache. -/
theorem offline_refines_tx (uid : String) (prev : FreedomStreakDoc)
    (cache : Option CacheContent) (d : Int) :
    (prev.user_id = uid → applyCleanLocal uid prev d = markCleanTxBody uid prev d) ∧
    applyBrokeLocal uid prev d = markBrokeTxBody uid prev d ∧
    (markCleanOffline uid cache d).1 =
      markCleanTxBody uid ((readFreedomCache uid cache).getD (defaultDoc uid)) d ∧
    (markCleanOffline uid cache d).2 = (markCleanOffline uid cache d).1.updated ∧
    (markBrokeOffline uid cache d).1 =
      markBrokeTxBody uid ((readFreedomCache uid cache).getD (defaultDoc uid)) d ∧
    (markBrokeOffline uid cache d).2 = (markBrokeOffline uid cache d).1 := by
  have hclean : ∀ p : FreedomStreakDoc,
      applyCleanLocal uid p d = markCleanTxBody uid { p with user_id := uid } d :=
    fun _ => rfl
  have hcu : ((readFreedomCache uid cache).getD (defaultDoc uid)).user_id = uid := by
    match cache with
    | none => rfl
    | some .malformed => rfl
    | some (.parsed _) => rfl
  have hmerge : ∀ p : FreedomStreakDoc, p.user_id = uid →
      ({ p with user_id := uid } : FreedomStreakDoc) = p := by
    intro p hp
    rw [← hp]
  refine ⟨?_, rfl, ?_, rfl, rfl, rfl⟩
  · intro hu
    rw [hclean prev, hmerge prev hu]
  · show applyCleanLocal uid ((readFreedomCache uid cache).getD (defaultDoc uid)) d = _
    rw [hclean _, hmerge _ hcu]

/-- Witness for C3 (amended): on the default record (whose `user_id` is the
operating uid) the offline clean transition and the transactional body
coincide. -/
theorem offline_refines_tx_witness :
    applyCleanLocal "u" (defaultDoc "u") 19723 =
      markCleanTxBody "u" (defaultDoc "u") 19723 :=
  (offline_refines_tx "u" (defaultDoc "u") none 19723).1 rfl

end VisionBoard
